import Mathlib

/-!
Shallow embedding of the scheduled-publication subsystem of the CMS backend:
the `publish_lesson` API handler (src/backend/app/main.py, lines 448-498) and
the worker function `publish_scheduled_lessons` (src/backend/worker.py,
lines 14-67), over the data model of src/backend/app/models/models.py.

Modelling conventions:
- timestamps (`DateTime` columns and `datetime.utcnow()` results) are `Nat`;
  nullable columns are `Option Nat`;
- row ids (UUIDs) are `Nat`;
- the database is a `State` holding the lesson, term and program tables as
  lists of rows; an UPDATE of a row writes back every row with the same id;
- each `datetime.utcnow()` call may return a distinct value: the worker tick
  takes a stream `clk : Nat → Nat` of clock readings (call `i` of the tick
  reads `clk i`), and the handler takes one reading per `utcnow()` call site;
- a Python `HTTPException` raised by the handler aborts the request before
  `db.commit()`, so no mutation persists: the embedding returns
  `Except PubError State`, and an `.error` result carries no new state;
- a `KeyError` escaping `data["action"]` is a distinct, untyped failure,
  modelled by the separate constructor `PubError.keyError`.
-/

namespace CMS

/-- Lesson workflow status, from `LessonStatus` in models.py. -/
inductive LessonStatus where
  | draft
  | scheduled
  | published
  | archived
deriving DecidableEq, Repr

/-- Program workflow status, from `ProgramStatus` in models.py. -/
inductive ProgramStatus where
  | draft
  | published
  | archived
deriving DecidableEq, Repr

/-- A row of the `lessons` table (models.py, class `Lesson`).  Fields not
touched by the publication subsystem are represented by `lesson_number`,
`title` and `updated_at`, standing in for the remaining columns so that
frame conditions are expressible. -/
structure Lesson where
  id : Nat
  term_id : Nat
  lesson_number : Nat
  title : String
  status : LessonStatus
  publish_at : Option Nat
  published_at : Option Nat
  updated_at : Nat
deriving DecidableEq, Repr

/-- A row of the `terms` table (models.py, class `Term`): pure structural
link from Lesson to Program. -/
structure Term where
  id : Nat
  program_id : Nat
deriving DecidableEq, Repr

/-- A row of the `programs` table (models.py, class `Program`), restricted to
the fields the publication subsystem reads or writes plus a stand-in `title`. -/
structure Program where
  id : Nat
  title : String
  status : ProgramStatus
  published_at : Option Nat
deriving DecidableEq, Repr

/-- The relational store: one list of rows per table. -/
structure State where
  lessons : List Lesson
  terms : List Term
  programs : List Program
deriving DecidableEq, Repr

/-- First lesson row with the given id (the ORM `query(...).filter(Lesson.id == ...).first()`). -/
def getLesson (st : State) (lid : Nat) : Option Lesson :=
  st.lessons.find? (fun l => decide (l.id = lid))

/-- First term row with the given id. -/
def getTerm (st : State) (tid : Nat) : Option Term :=
  st.terms.find? (fun t => decide (t.id = tid))

/-- First program row with the given id. -/
def getProgram (st : State) (pid : Nat) : Option Program :=
  st.programs.find? (fun p => decide (p.id = pid))

/-- Write a lesson row back: every row with the same id is replaced. -/
def updateLesson (st : State) (l : Lesson) : State :=
  { st with lessons := st.lessons.map (fun x => if x.id = l.id then l else x) }

/-- Write a program row back: every row with the same id is replaced. -/
def updateProgram (st : State) (p : Program) : State :=
  { st with programs := st.programs.map (fun x => if x.id = p.id then p else x) }

/-- SQL `Lesson.publish_at <= now`: a NULL `publish_at` compares unknown and
the row is not selected. -/
def isDue (publish_at : Option Nat) (now : Nat) : Bool :=
  match publish_at with
  | some t => decide (t ≤ now)
  | none => false

/-- The worker's selection query (worker.py lines 24-29): lessons with
`status == scheduled` and `publish_at <= now`. -/
def dueLessons (st : State) (now : Nat) : List Lesson :=
  st.lessons.filter (fun l => decide (l.status = LessonStatus.scheduled) && isDue l.publish_at now)

/-- Body of one iteration of the worker's per-lesson loop (worker.py lines
36-53) applied to the lesson with id `lid`:
re-check `lesson.status == scheduled`, then set `status = published` and
`published_at = utcnow()` (the reading `t_lesson`; note the assignment is
unconditional — `publish_at` is not cleared and a previous `published_at` is
overwritten), then the Program cascade: look up the parent term and program,
and if the program is `draft`, set `status = published` and set
`published_at = utcnow()` (the reading `t_prog`) only when it is currently
None. -/
def workerPublishOne (t_lesson t_prog : Nat) (st : State) (lid : Nat) : State :=
  match getLesson st lid with
  | none => st
  | some lesson =>
    if lesson.status = LessonStatus.scheduled then
      let lesson2 : Lesson :=
        { lesson with status := LessonStatus.published, published_at := some t_lesson }
      let st1 := updateLesson st lesson2
      match getTerm st1 lesson.term_id with
      | none => st1
      | some term =>
        match getProgram st1 term.program_id with
        | none => st1
        | some program =>
          if program.status = ProgramStatus.draft then
            updateProgram st1
              { program with
                status := ProgramStatus.published,
                published_at :=
                  if program.published_at = none then some t_prog else program.published_at }
          else st1
    else st

/-- The worker's per-lesson loop over the selected batch (worker.py lines
36-56), threading the clock stream: the lesson at position `i` of the batch
uses readings `clk (2*i+1)` and `clk (2*i+2)`. -/
def runBatch (clk : Nat → Nat) (i : Nat) (st : State) (ids : List Nat) : State :=
  match ids with
  | [] => st
  | lid :: rest =>
      runBatch clk (i + 1) (workerPublishOne (clk (2 * i + 1)) (clk (2 * i + 2)) st lid) rest

/-- One worker tick, `publish_scheduled_lessons` (worker.py lines 14-67):
capture `now = utcnow()` (reading `clk 0`), select the due scheduled lessons,
and run the per-lesson loop over them. -/
def publish_scheduled_lessons (clk : Nat → Nat) (st : State) : State :=
  let now := clk 0
  runBatch clk 0 st ((dueLessons st now).map Lesson.id)

/-- Errors the handler can surface: `http code detail` models a raised
`HTTPException(status_code=code, detail=detail)` (the request aborts before
`db.commit()`, so nothing is mutated), and `keyError` models the untyped
Python `KeyError` escaping `data["action"]` when the key is absent. -/
inductive PubError where
  | keyError
  | http (code : Nat) (detail : String)
deriving DecidableEq, Repr

/-- The request body `data` of the publish endpoint: `action` is the value of
the `"action"` key when present, `publish_at` the parsed datetime of the
`"publish_at"` key when present and truthy. -/
structure PublishRequest where
  action : Option String
  publish_at : Option Nat
deriving DecidableEq, Repr

/-- The `publish_lesson` handler (main.py lines 448-498), after the
authentication and role checks (lines 457-458, out of scope of the claims):
look up the lesson (404 if absent), read `data["action"]` (KeyError if the
key is absent), then branch:
- `"publish_now"` (lines 466-478): set `status = published`,
  `published_at = utcnow()` (reading `t_lesson`, assigned unconditionally),
  `publish_at = None`, then the Program cascade with reading `t_prog`;
- `"schedule"` (lines 480-486): 400 if `data.get("publish_at")` is falsy,
  else set `status = scheduled` and `publish_at` to the parsed value;
- `"archive"` (lines 488-490): set `status = archived`;
- anything else: 400 "Invalid action". -/
def publish_lesson (t_lesson t_prog : Nat) (lesson_id : Nat)
    (data : PublishRequest) (st : State) : Except PubError State :=
  match getLesson st lesson_id with
  | none => .error (.http 404 "Lesson not found")
  | some lesson =>
    match data.action with
    | none => .error .keyError
    | some action =>
      if action = "publish_now" then
        let lesson2 : Lesson :=
          { lesson with
            status := LessonStatus.published,
            published_at := some t_lesson,
            publish_at := none }
        let st1 := updateLesson st lesson2
        .ok (match getTerm st1 lesson.term_id with
          | none => st1
          | some term =>
            match getProgram st1 term.program_id with
            | none => st1
            | some program =>
              if program.status = ProgramStatus.draft then
                updateProgram st1
                  { program with
                    status := ProgramStatus.published,
                    published_at :=
                      if program.published_at = none then some t_prog
                      else program.published_at }
              else st1)
      else if action = "schedule" then
        match data.publish_at with
        | none => .error (.http 400 "publish_at required for scheduling")
        | some t =>
          .ok (updateLesson st
            { lesson with status := LessonStatus.scheduled, publish_at := some t })
      else if action = "archive" then
        .ok (updateLesson st { lesson with status := LessonStatus.archived })
      else .error (.http 400 "Invalid action")

/-! Concrete rows and stores used to evaluate the development on explicit
inputs (counterexamples and witnesses). -/

/-- A term linking lesson rows (term_id 10) to program 20. -/
def exTerm : Term := { id := 10, program_id := 20 }

/-- A draft program with no publication timestamp. -/
def exProgDraft : Program := { id := 20, title := "P", status := .draft, published_at := none }

/-- A published program whose `published_at` is already set. -/
def exProgPub : Program := { id := 20, title := "P", status := .published, published_at := some 5 }

/-- An archived program (with a historical `published_at`). -/
def exProgArch : Program := { id := 20, title := "P", status := .archived, published_at := some 4 }

/-- A lesson already published at time 5 (`published_at` non-null). -/
def exLessonPub : Lesson :=
  { id := 1, term_id := 10, lesson_number := 1, title := "L1",
    status := .published, publish_at := none, published_at := some 5, updated_at := 0 }

/-- A lesson re-scheduled after having been published: `status = scheduled`
with `published_at` still set from the earlier publication. -/
def exLessonResched : Lesson :=
  { id := 1, term_id := 10, lesson_number := 1, title := "L1",
    status := .scheduled, publish_at := some 3, published_at := some 5, updated_at := 0 }

/-- A scheduled lesson due at time 3, never published before. -/
def exLessonSched : Lesson :=
  { id := 1, term_id := 10, lesson_number := 1, title := "L1",
    status := .scheduled, publish_at := some 3, published_at := none, updated_at := 0 }

/-- A scheduled lesson due only at time 99. -/
def exLessonFuture : Lesson :=
  { id := 2, term_id := 10, lesson_number := 2, title := "L2",
    status := .scheduled, publish_at := some 99, published_at := none, updated_at := 0 }

/-- A draft lesson. -/
def exLessonDraft : Lesson :=
  { id := 1, term_id := 10, lesson_number := 1, title := "L1",
    status := .draft, publish_at := none, published_at := none, updated_at := 0 }

/-- Store with one already-published lesson under a draft program. -/
def exStPub : State := { lessons := [exLessonPub], terms := [exTerm], programs := [exProgDraft] }

/-- Store with one re-scheduled lesson (no parent rows needed). -/
def exStResched : State := { lessons := [exLessonResched], terms := [], programs := [] }

/-- Store with one due scheduled lesson under a draft program. -/
def exStSched : State := { lessons := [exLessonSched], terms := [exTerm], programs := [exProgDraft] }

/-- Store with one due and one future scheduled lesson under a draft program. -/
def exStBoth : State :=
  { lessons := [exLessonSched, exLessonFuture], terms := [exTerm], programs := [exProgDraft] }

/-- Store with one due scheduled lesson under an already-published program. -/
def exStProgPub : State := { lessons := [exLessonSched], terms := [exTerm], programs := [exProgPub] }

/-- Store with one due scheduled lesson under an archived program. -/
def exStProgArch : State :=
  { lessons := [exLessonSched], terms := [exTerm], programs := [exProgArch] }

/-- Store with one draft lesson under a draft program. -/
def exStDraft : State := { lessons := [exLessonDraft], terms := [exTerm], programs := [exProgDraft] }

/-- The handler result of publish-now on `exStSched` at readings 10/11. -/
def exStSchedPubNow : State :=
  { lessons := [{ id := 1, term_id := 10, lesson_number := 1, title := "L1",
                  status := .published, publish_at := none, published_at := some 10,
                  updated_at := 0 }],
    terms := [exTerm],
    programs := [{ id := 20, title := "P", status := .published, published_at := some 11 }] }

/-- The handler result of publish-now on `exStProgArch` at readings 10/11. -/
def exStProgArchPubNow : State :=
  { lessons := [{ id := 1, term_id := 10, lesson_number := 1, title := "L1",
                  status := .published, publish_at := none, published_at := some 10,
                  updated_at := 0 }],
    terms := [exTerm],
    programs := [exProgArch] }

/-- The handler result of publish-now on `exStProgPub` at readings 10/11. -/
def exStProgPubPubNow : State :=
  { lessons := [{ id := 1, term_id := 10, lesson_number := 1, title := "L1",
                  status := .published, publish_at := none, published_at := some 10,
                  updated_at := 0 }],
    terms := [exTerm],
    programs := [exProgPub] }

end CMS

namespace CMS

/-! Basic lemmas about the store operations. -/

theorem getProgram_updateLesson (st : State) (l : Lesson) (pid : Nat) :
    getProgram (updateLesson st l) pid = getProgram st pid := rfl

theorem getTerm_updateLesson (st : State) (l : Lesson) (tid : Nat) :
    getTerm (updateLesson st l) tid = getTerm st tid := rfl

theorem getLesson_updateProgram (st : State) (p : Program) (lid : Nat) :
    getLesson (updateProgram st p) lid = getLesson st lid := rfl

theorem getTerm_updateProgram (st : State) (p : Program) (tid : Nat) :
    getTerm (updateProgram st p) tid = getTerm st tid := rfl

theorem updateLesson_terms (st : State) (l : Lesson) : (updateLesson st l).terms = st.terms := rfl

theorem updateProgram_lessons (st : State) (p : Program) :
    (updateProgram st p).lessons = st.lessons := rfl

/-- Generic: writing back a row whose key differs from the looked-up key does
not change the lookup. -/
theorem find?_map_update_ne {α : Type} (key : α → Nat) (xs : List α) (l : α) (k : Nat)
    (h : key l ≠ k) :
    (xs.map (fun x => if key x = key l then l else x)).find? (fun x => decide (key x = k))
      = xs.find? (fun x => decide (key x = k)) := by
  induction xs with
  | nil => rfl
  | cons b bs ih =>
    by_cases hb : key b = key l
    · have hbk : ¬ key b = k := by rw [hb]; exact h
      simp only [List.map_cons, if_pos hb]
      rw [List.find?_cons_of_neg _ (by simpa using h), List.find?_cons_of_neg _ (by simpa using hbk)]
      exact ih
    · simp only [List.map_cons, if_neg hb]
      by_cases hk : key b = k
      · rw [List.find?_cons_of_pos _ (by simpa using hk), List.find?_cons_of_pos _ (by simpa using hk)]
      · rw [List.find?_cons_of_neg _ (by simpa using hk), List.find?_cons_of_neg _ (by simpa using hk)]
        exact ih

/-- Generic: writing back a row whose key is present makes the lookup of that
key return the written row. -/
theorem find?_map_update_eq {α : Type} (key : α → Nat) (xs : List α) (l a : α)
    (h : xs.find? (fun x => decide (key x = key l)) = some a) :
    (xs.map (fun x => if key x = key l then l else x)).find? (fun x => decide (key x = key l))
      = some l := by
  induction xs with
  | nil => simp at h
  | cons b bs ih =>
    by_cases hb : key b = key l
    · simp only [List.map_cons, if_pos hb]
      rw [List.find?_cons_of_pos _ (by simp)]
    · simp only [List.map_cons, if_neg hb]
      rw [List.find?_cons_of_neg _ (by simpa using hb)]
      rw [List.find?_cons_of_neg _ (by simpa using hb)] at h
      exact ih h

theorem getLesson_updateLesson_ne (st : State) (l : Lesson) (lid : Nat) (h : l.id ≠ lid) :
    getLesson (updateLesson st l) lid = getLesson st lid :=
  find?_map_update_ne Lesson.id st.lessons l lid h

theorem getLesson_updateLesson_eq (st : State) (l a : Lesson)
    (h : getLesson st l.id = some a) :
    getLesson (updateLesson st l) l.id = some l :=
  find?_map_update_eq Lesson.id st.lessons l a h

theorem getProgram_updateProgram_ne (st : State) (p : Program) (pid : Nat) (h : p.id ≠ pid) :
    getProgram (updateProgram st p) pid = getProgram st pid :=
  find?_map_update_ne Program.id st.programs p pid h

theorem getProgram_updateProgram_eq (st : State) (p a : Program)
    (h : getProgram st p.id = some a) :
    getProgram (updateProgram st p) p.id = some p :=
  find?_map_update_eq Program.id st.programs p a h

theorem getLesson_id (st : State) (lid : Nat) (l : Lesson) (h : getLesson st lid = some l) :
    l.id = lid := by
  have := List.find?_some h
  simpa using this

theorem getProgram_id (st : State) (pid : Nat) (p : Program) (h : getProgram st pid = some p) :
    p.id = pid := by
  have := List.find?_some h
  simpa using this

theorem getLesson_mem (st : State) (lid : Nat) (l : Lesson) (h : getLesson st lid = some l) :
    l ∈ st.lessons :=
  List.mem_of_find?_eq_some h

end CMS

namespace CMS

/-! Structural lemmas about one worker-loop iteration. -/

/-- The lessons table after one worker-loop iteration: unchanged, or the
selected lesson written back as published with `published_at = t_lesson`. -/
theorem workerPublishOne_lessons (t1 t2 : Nat) (st : State) (lid : Nat) :
    (workerPublishOne t1 t2 st lid).lessons = st.lessons ∨
    ∃ lesson, getLesson st lid = some lesson ∧ lesson.status = LessonStatus.scheduled ∧
      (workerPublishOne t1 t2 st lid).lessons =
        (updateLesson st { lesson with
          status := LessonStatus.published, published_at := some t1 }).lessons := by
  unfold workerPublishOne
  split
  · left; rfl
  next lesson hfind =>
    split
    next hs =>
      right
      refine ⟨lesson, hfind, hs, ?_⟩
      dsimp only
      split
      · rfl
      next term hterm =>
        split
        · rfl
        next program hprog =>
          split
          · rfl
          · rfl
    next hs => left; rfl

/-- If the selected lesson is found and scheduled, the iteration writes it
back as published (the positive case of `workerPublishOne_lessons`). -/
theorem workerPublishOne_lessons_hit (t1 t2 : Nat) (st : State) (lid : Nat) (l : Lesson)
    (hl : getLesson st lid = some l) (hs : l.status = LessonStatus.scheduled) :
    (workerPublishOne t1 t2 st lid).lessons =
      (updateLesson st { l with
        status := LessonStatus.published, published_at := some t1 }).lessons := by
  unfold workerPublishOne
  split
  next hnone => rw [hnone] at hl; exact absurd hl (by simp)
  next lesson hfind =>
    rw [hl] at hfind
    injection hfind with heq
    subst heq
    rw [if_pos hs]
    dsimp only
    split
    · rfl
    next term hterm =>
      split
      · rfl
      next program hprog =>
        split
        · rfl
        · rfl

/-- The programs table after one worker-loop iteration: unchanged, or a draft
program written back as published with the set-if-null `published_at` rule. -/
theorem workerPublishOne_programs (t1 t2 : Nat) (st : State) (lid : Nat) :
    (workerPublishOne t1 t2 st lid).programs = st.programs ∨
    ∃ pid program, getProgram st pid = some program ∧
      program.status = ProgramStatus.draft ∧
      (workerPublishOne t1 t2 st lid).programs =
        (updateProgram st { program with
          status := ProgramStatus.published,
          published_at :=
            if program.published_at = none then some t2
            else program.published_at }).programs := by
  unfold workerPublishOne
  split
  · left; rfl
  next lesson hfind =>
    split
    next hs =>
      dsimp only
      split
      · left; rfl
      next term hterm =>
        split
        · left; rfl
        next program hprog =>
          split
          next hd =>
            right
            exact ⟨term.program_id, program, hprog, hd, rfl⟩
          · left; rfl
    next hs => left; rfl

end CMS

namespace CMS

/-! Preservation lemmas along the worker batch. -/

/-- A worker-loop iteration for one lesson id does not touch any other lesson row. -/
theorem getLesson_workerPublishOne_ne (t1 t2 : Nat) (st : State) (lid target : Nat)
    (h : lid ≠ target) :
    getLesson (workerPublishOne t1 t2 st lid) target = getLesson st target := by
  rcases workerPublishOne_lessons t1 t2 st lid with hsame | ⟨lesson, hl, hs, heq⟩
  · unfold getLesson; rw [hsame]
  · have hid : lesson.id = lid := getLesson_id st lid lesson hl
    unfold getLesson
    rw [heq]
    exact find?_map_update_ne Lesson.id st.lessons _ target (by simpa [hid] using h)

/-- Running the batch over ids that all differ from `target` leaves the
`target` lesson row untouched. -/
theorem runBatch_getLesson_preserve (clk : Nat → Nat) (ids : List Nat) (i : Nat) (st : State)
    (target : Nat) (h : ∀ lid ∈ ids, lid ≠ target) :
    getLesson (runBatch clk i st ids) target = getLesson st target := by
  induction ids generalizing i st with
  | nil => rfl
  | cons a rest ih =>
    rw [runBatch]
    rw [ih (i + 1) _ (fun lid hm => h lid (List.mem_cons_of_mem a hm))]
    exact getLesson_workerPublishOne_ne _ _ st a target (h a (List.mem_cons_self a rest))

/-- Running the batch over `pre ++ target :: post`, where the flanks avoid
`target` and the `target` lesson is scheduled, publishes it: the resulting
row is the original with `status = published` and `published_at` set to one
of the tick's clock readings; all other fields, `publish_at` included, are
unchanged. -/
theorem runBatch_publishes (clk : Nat → Nat) (pre : List Nat) (post : List Nat) (i : Nat)
    (st : State) (target : Nat) (l : Lesson)
    (hpre : ∀ x ∈ pre, x ≠ target) (hpost : ∀ x ∈ post, x ≠ target)
    (hl : getLesson st target = some l) (hs : l.status = LessonStatus.scheduled) :
    ∃ t, getLesson (runBatch clk i st (pre ++ target :: post)) target =
      some { l with status := LessonStatus.published, published_at := some t } := by
  induction pre generalizing i st l with
  | nil =>
    have hid : l.id = target := getLesson_id st target l hl
    subst hid
    refine ⟨clk (2 * i + 1), ?_⟩
    rw [List.nil_append, runBatch]
    rw [runBatch_getLesson_preserve clk post (i + 1) _ _ hpost]
    unfold getLesson
    rw [workerPublishOne_lessons_hit (clk (2 * i + 1)) (clk (2 * i + 2)) st l.id l hl hs]
    exact find?_map_update_eq Lesson.id st.lessons
      { l with status := LessonStatus.published, published_at := some (clk (2 * i + 1)) } l hl
  | cons a pre ih =>
    rw [List.cons_append, runBatch]
    have ha : a ≠ target := hpre a (List.mem_cons_self a pre)
    have hl2 : getLesson (workerPublishOne (clk (2 * i + 1)) (clk (2 * i + 2)) st a) target
        = some l := by
      rw [getLesson_workerPublishOne_ne _ _ st a target ha]; exact hl
    exact ih (i + 1) _ l (fun x hm => hpre x (List.mem_cons_of_mem a hm)) hl2 hs

/-! Program-level invariants.  Both mutation paths (worker iteration and
handler) either leave the programs table unchanged or write back one draft
program with the set-if-null `published_at` rule; the two invariants below
follow from that common shape. -/

/-- Any state whose programs table has the cascade shape preserves an
already-set program `published_at`. -/
theorem pubAt_inv_of_shape (st X : State) (t2 pid v : Nat)
    (hshape : X.programs = st.programs ∨
      ∃ pid2 prog, getProgram st pid2 = some prog ∧ prog.status = ProgramStatus.draft ∧
        X.programs = (updateProgram st { prog with
          status := ProgramStatus.published,
          published_at := if prog.published_at = none then some t2
                          else prog.published_at }).programs)
    (h : ∃ q, getProgram st pid = some q ∧ q.published_at = some v) :
    ∃ q, getProgram X pid = some q ∧ q.published_at = some v := by
  obtain ⟨q, hq, hv⟩ := h
  rcases hshape with hsame | ⟨pid2, prog, hp, hd, heq⟩
  · refine ⟨q, ?_, hv⟩
    have h2 : getProgram X pid = getProgram st pid := by
      unfold getProgram; rw [hsame]
    rw [h2]; exact hq
  · by_cases hip : pid2 = pid
    · subst hip
      have hqp : q = prog := by
        rw [hp] at hq
        exact (Option.some.inj hq).symm
      subst hqp
      have hpid : q.id = pid2 := getProgram_id st pid2 q hp
      have h2 : getProgram X pid2
          = getProgram (updateProgram st { q with
              status := ProgramStatus.published,
              published_at := if q.published_at = none then some t2
                              else q.published_at }) pid2 := by
        unfold getProgram; rw [heq]
      refine ⟨{ q with
        status := ProgramStatus.published,
        published_at := if q.published_at = none then some t2
                        else q.published_at }, ?_, by simp [hv]⟩
      rw [h2]
      have h3 : ({ q with
        status := ProgramStatus.published,
        published_at := if q.published_at = none then some t2
                        else q.published_at } : Program).id = pid2 := hpid
      rw [← h3]
      exact getProgram_updateProgram_eq st _ q (by rw [h3]; exact hp)
    · have hpid2 : prog.id = pid2 := getProgram_id st pid2 prog hp
      refine ⟨q, ?_, hv⟩
      have h2 : getProgram X pid
          = getProgram (updateProgram st { prog with
              status := ProgramStatus.published,
              published_at := if prog.published_at = none then some t2
                              else prog.published_at }) pid := by
        unfold getProgram; rw [heq]
      rw [h2, getProgram_updateProgram_ne st _ pid (by simpa [hpid2] using hip)]
      exact hq

/-- Any state whose programs table has the cascade shape leaves an archived
program row untouched: the cascade only rewrites a draft program. -/
theorem archived_inv_of_shape (st X : State) (t2 pid : Nat) (p : Program)
    (hshape : X.programs = st.programs ∨
      ∃ pid2 prog, getProgram st pid2 = some prog ∧ prog.status = ProgramStatus.draft ∧
        X.programs = (updateProgram st { prog with
          status := ProgramStatus.published,
          published_at := if prog.published_at = none then some t2
                          else prog.published_at }).programs)
    (hp : getProgram st pid = some p) (ha : p.status = ProgramStatus.archived) :
    getProgram X pid = some p := by
  rcases hshape with hsame | ⟨pid2, prog, hp2, hd, heq⟩
  · have h2 : getProgram X pid = getProgram st pid := by
      unfold getProgram; rw [hsame]
    rw [h2]; exact hp
  · have hpid2 : prog.id = pid2 := getProgram_id st pid2 prog hp2
    by_cases hip : pid2 = pid
    · subst hip
      rw [hp2] at hp
      have hqp : prog = p := Option.some.inj hp
      subst hqp
      rw [hd] at ha
      exact absurd ha (by simp)
    · have h2 : getProgram X pid
          = getProgram (updateProgram st { prog with
              status := ProgramStatus.published,
              published_at := if prog.published_at = none then some t2
                              else prog.published_at }) pid := by
        unfold getProgram; rw [heq]
      rw [h2, getProgram_updateProgram_ne st _ pid (by simpa [hpid2] using hip)]
      exact hp

/-- One worker-loop iteration preserves an already-set program `published_at`. -/
theorem workerPublishOne_pubAt_inv (t1 t2 : Nat) (st : State) (lid pid v : Nat)
    (h : ∃ q, getProgram st pid = some q ∧ q.published_at = some v) :
    ∃ q, getProgram (workerPublishOne t1 t2 st lid) pid = some q ∧
      q.published_at = some v :=
  pubAt_inv_of_shape st _ t2 pid v (workerPublishOne_programs t1 t2 st lid) h

/-- Running the whole batch preserves an already-set program `published_at`. -/
theorem runBatch_pubAt_inv (clk : Nat → Nat) (ids : List Nat) (i : Nat) (st : State)
    (pid v : Nat) (h : ∃ q, getProgram st pid = some q ∧ q.published_at = some v) :
    ∃ q, getProgram (runBatch clk i st ids) pid = some q ∧ q.published_at = some v := by
  induction ids generalizing i st with
  | nil => exact h
  | cons a rest ih =>
    rw [runBatch]
    exact ih (i + 1) _ (workerPublishOne_pubAt_inv _ _ st a pid v h)

/-- One worker-loop iteration leaves an archived program row untouched. -/
theorem workerPublishOne_archived_inv (t1 t2 : Nat) (st : State) (lid pid : Nat) (p : Program)
    (hp : getProgram st pid = some p) (ha : p.status = ProgramStatus.archived) :
    getProgram (workerPublishOne t1 t2 st lid) pid = some p :=
  archived_inv_of_shape st _ t2 pid p (workerPublishOne_programs t1 t2 st lid) hp ha

/-- Running the whole batch leaves an archived program row untouched. -/
theorem runBatch_archived_inv (clk : Nat → Nat) (ids : List Nat) (i : Nat) (st : State)
    (pid : Nat) (p : Program)
    (hp : getProgram st pid = some p) (ha : p.status = ProgramStatus.archived) :
    getProgram (runBatch clk i st ids) pid = some p := by
  induction ids generalizing i st with
  | nil => exact hp
  | cons a rest ih =>
    rw [runBatch]
    exact ih (i + 1) _ (workerPublishOne_archived_inv _ _ st a pid p hp ha)

end CMS

namespace CMS

/-! Composition lemmas for row writes. -/

/-- Writing a row twice with the same id keeps only the second write. -/
theorem updateLesson_updateLesson_same_id (st : State) (a b : Lesson) (h : a.id = b.id) :
    updateLesson (updateLesson st a) b = updateLesson st b := by
  have hf : ((fun x => if x.id = b.id then b else x) ∘ fun x => if x.id = a.id then a else x)
      = fun x : Lesson => if x.id = b.id then b else x := by
    funext x
    simp only [Function.comp]
    by_cases hx : x.id = a.id
    · rw [if_pos hx, if_pos h, if_pos (hx.trans h)]
    · rw [if_neg hx]
  unfold updateLesson
  simp only [List.map_map, hf]

/-- A lesson write and a program write touch different tables, so they commute. -/
theorem updateLesson_updateProgram_comm (st : State) (l : Lesson) (p : Program) :
    updateLesson (updateProgram st p) l = updateProgram (updateLesson st l) p := rfl

/-! Characterization of the handler on each action. -/

/-- Unknown lesson id: the handler 404s regardless of the request body. -/
theorem publish_lesson_notFound (t1 t2 lid : Nat) (st : State) (data : PublishRequest)
    (hl : getLesson st lid = none) :
    publish_lesson t1 t2 lid data st = .error (.http 404 "Lesson not found") := by
  unfold publish_lesson
  rw [hl]

/-- Request body without an `"action"` key: `data["action"]` raises KeyError. -/
theorem publish_lesson_keyError (t1 t2 lid : Nat) (st : State) (l : Lesson) (pa : Option Nat)
    (hl : getLesson st lid = some l) :
    publish_lesson t1 t2 lid { action := none, publish_at := pa } st = .error .keyError := by
  unfold publish_lesson
  rw [hl]

/-- An `"action"` value other than the three known ones yields the typed 400. -/
theorem publish_lesson_invalid (t1 t2 lid : Nat) (st : State) (l : Lesson) (a : String)
    (pa : Option Nat) (hl : getLesson st lid = some l)
    (h1 : a ≠ "publish_now") (h2 : a ≠ "schedule") (h3 : a ≠ "archive") :
    publish_lesson t1 t2 lid { action := some a, publish_at := pa } st =
      .error (.http 400 "Invalid action") := by
  unfold publish_lesson
  rw [hl]
  dsimp only
  rw [if_neg h1, if_neg h2, if_neg h3]

/-- The schedule action with a present `publish_at` value: the lesson is
written back with `status = scheduled` and `publish_at` set; `published_at`
and every other field are untouched, and no program is touched. -/
theorem publish_lesson_schedule (t1 t2 lid : Nat) (st : State) (l : Lesson) (v : Nat)
    (hl : getLesson st lid = some l) :
    publish_lesson t1 t2 lid { action := some "schedule", publish_at := some v } st =
      .ok (updateLesson st { l with status := LessonStatus.scheduled, publish_at := some v }) := by
  unfold publish_lesson
  rw [hl]
  dsimp only
  rw [if_neg (by decide), if_pos rfl]

/-- The schedule action with `publish_at` absent (or falsy): a 400 validation
error distinct from the 404, raised before any assignment. -/
theorem publish_lesson_schedule_missing (t1 t2 lid : Nat) (st : State) (l : Lesson)
    (hl : getLesson st lid = some l) :
    publish_lesson t1 t2 lid { action := some "schedule", publish_at := none } st =
      .error (.http 400 "publish_at required for scheduling") := by
  unfold publish_lesson
  rw [hl]
  dsimp only
  rw [if_neg (by decide), if_pos rfl]

/-- The archive action: only `status` is assigned; `publish_at`,
`published_at` and every other field of the lesson, and the whole terms and
programs tables, are unchanged. -/
theorem publish_lesson_archive (t1 t2 lid : Nat) (st : State) (l : Lesson) (pa : Option Nat)
    (hl : getLesson st lid = some l) :
    publish_lesson t1 t2 lid { action := some "archive", publish_at := pa } st =
      .ok (updateLesson st { l with status := LessonStatus.archived }) := by
  unfold publish_lesson
  rw [hl]
  dsimp only
  rw [if_neg (by decide), if_neg (by decide), if_pos rfl]

/-- The publish-now action always succeeds on an existing lesson. -/
theorem publish_lesson_publish_now_isOk (t1 t2 lid : Nat) (st : State) (l : Lesson)
    (pa : Option Nat) (hl : getLesson st lid = some l) :
    ∃ st', publish_lesson t1 t2 lid { action := some "publish_now", publish_at := pa } st =
      .ok st' := by
  unfold publish_lesson
  rw [hl]
  dsimp only
  rw [if_pos rfl]
  exact ⟨_, rfl⟩

/-- On publish-now, the lessons table of the result is the original with the
target lesson written back as `status = published`,
`published_at = t_lesson` (unconditionally overwritten) and
`publish_at = None`. -/
theorem publish_lesson_publish_now_lessons (t1 t2 lid : Nat) (st st' : State) (l : Lesson)
    (pa : Option Nat) (hl : getLesson st lid = some l)
    (hh : publish_lesson t1 t2 lid { action := some "publish_now", publish_at := pa } st =
      .ok st') :
    st'.lessons = (updateLesson st { l with
      status := LessonStatus.published, published_at := some t1,
      publish_at := none }).lessons := by
  unfold publish_lesson at hh
  rw [hl] at hh
  dsimp only at hh
  rw [if_pos rfl] at hh
  have hst : st' = _ := (Except.ok.inj hh).symm
  subst hst
  split
  · rfl
  · split
    · rfl
    · split
      · rfl
      · rfl

end CMS

namespace CMS

/-- For every action, a successful handler call leaves the programs table
unchanged or writes back one draft program with the set-if-null
`published_at` rule (the same shape as the worker cascade). -/
theorem publish_lesson_programs (t1 t2 lid : Nat) (data : PublishRequest) (st st' : State)
    (hh : publish_lesson t1 t2 lid data st = .ok st') :
    st'.programs = st.programs ∨
    ∃ pid prog, getProgram st pid = some prog ∧ prog.status = ProgramStatus.draft ∧
      st'.programs = (updateProgram st { prog with
        status := ProgramStatus.published,
        published_at := if prog.published_at = none then some t2
                        else prog.published_at }).programs := by
  unfold publish_lesson at hh
  cases hfind : getLesson st lid with
  | none => rw [hfind] at hh; exact absurd hh (by simp)
  | some lesson =>
    rw [hfind] at hh
    dsimp only at hh
    cases hact : data.action with
    | none => rw [hact] at hh; dsimp only at hh; exact absurd hh (by simp)
    | some a =>
      rw [hact] at hh
      dsimp only at hh
      by_cases h1 : a = "publish_now"
      · subst h1
        rw [if_pos rfl] at hh
        have hst := (Except.ok.inj hh).symm
        subst hst
        split
        · left; rfl
        · split
          · left; rfl
          next program hprog =>
            split
            next hd =>
              right
              exact ⟨_, program, hprog, hd, rfl⟩
            · left; rfl
      · rw [if_neg h1] at hh
        by_cases h2 : a = "schedule"
        · subst h2
          rw [if_pos rfl] at hh
          cases hpa : data.publish_at with
          | none => rw [hpa] at hh; dsimp only at hh; exact absurd hh (by simp)
          | some v =>
            rw [hpa] at hh
            dsimp only at hh
            have hst := (Except.ok.inj hh).symm
            subst hst
            left; rfl
        · rw [if_neg h2] at hh
          by_cases h3 : a = "archive"
          · subst h3
            rw [if_pos rfl] at hh
            have hst := (Except.ok.inj hh).symm
            subst hst
            left; rfl
          · rw [if_neg h3] at hh
            exact absurd hh (by simp)

/-- The worker's due-transition of a scheduled lesson produces the same state
as the handler's publish-now at the same clock readings, except for the
target lesson's `publish_at` field: re-writing the worker's version of the
row (which keeps `publish_at`) over the handler result reproduces the worker
result exactly. -/
theorem workerPublishOne_eq_publish_now_restore (t1 t2 : Nat) (st st' : State) (l : Lesson)
    (pa : Option Nat)
    (hl : getLesson st l.id = some l) (hs : l.status = LessonStatus.scheduled)
    (hh : publish_lesson t1 t2 l.id { action := some "publish_now", publish_at := pa } st =
      .ok st') :
    workerPublishOne t1 t2 st l.id =
      updateLesson st' { l with
        status := LessonStatus.published, published_at := some t1 } := by
  unfold publish_lesson at hh
  rw [hl] at hh
  dsimp only at hh
  rw [if_pos rfl] at hh
  have hst := (Except.ok.inj hh).symm
  subst hst
  unfold workerPublishOne
  rw [hl]
  dsimp only
  rw [if_pos hs]
  simp only [getTerm_updateLesson, getProgram_updateLesson]
  cases hterm : getTerm st l.term_id with
  | none =>
    exact (updateLesson_updateLesson_same_id st
      { l with status := LessonStatus.published, published_at := some t1, publish_at := none }
      { l with status := LessonStatus.published, published_at := some t1 } rfl).symm
  | some term =>
    dsimp only
    cases hprog : getProgram st term.program_id with
    | none =>
      exact (updateLesson_updateLesson_same_id st
        { l with status := LessonStatus.published, published_at := some t1, publish_at := none }
        { l with status := LessonStatus.published, published_at := some t1 } rfl).symm
    | some program =>
      dsimp only
      by_cases hd : program.status = ProgramStatus.draft
      · rw [if_pos hd, if_pos hd]
        rw [updateLesson_updateProgram_comm]
        rw [updateLesson_updateLesson_same_id st
          { l with status := LessonStatus.published, published_at := some t1, publish_at := none }
          { l with status := LessonStatus.published, published_at := some t1 } rfl]
      · rw [if_neg hd, if_neg hd]
        exact (updateLesson_updateLesson_same_id st
          { l with status := LessonStatus.published, published_at := some t1, publish_at := none }
          { l with status := LessonStatus.published, published_at := some t1 } rfl).symm

end CMS

namespace CMS

/-! Lookup and due-selection facts under unique primary keys. -/

/-- Under unique ids, finding a member row by its own id returns that row. -/
theorem find?_id_of_nodup (xs : List Lesson) (hN : (xs.map Lesson.id).Nodup)
    (l : Lesson) (hl : l ∈ xs) : xs.find? (fun x => decide (x.id = l.id)) = some l := by
  induction xs with
  | nil => cases hl
  | cons a as ih =>
    rcases List.mem_cons.mp hl with rfl | hmem
    · exact List.find?_cons_of_pos _ (by simp)
    · have hN2 : (∀ x ∈ as, ¬ x.id = a.id) ∧ (as.map Lesson.id).Nodup := by
        simpa using hN
      have hne : ¬ a.id = l.id := fun he => hN2.1 l hmem he.symm
      rw [List.find?_cons_of_neg _ (by simpa using hne)]
      exact ih hN2.2 hmem

/-- With unique lesson ids (the primary-key constraint), looking up a member
row by its id finds exactly that row. -/
theorem getLesson_of_nodup (st : State) (hN : (st.lessons.map Lesson.id).Nodup)
    (l : Lesson) (hl : l ∈ st.lessons) : getLesson st l.id = some l :=
  find?_id_of_nodup st.lessons hN l hl

/-- With unique lesson ids, a member lesson failing the due-selection
predicate has its id outside the selected batch. -/
theorem notMem_dueIds (st : State) (hN : (st.lessons.map Lesson.id).Nodup)
    (l : Lesson) (hl : l ∈ st.lessons) (now : Nat)
    (hfail : (decide (l.status = LessonStatus.scheduled) && isDue l.publish_at now) = false) :
    l.id ∉ (dueLessons st now).map Lesson.id := by
  intro hmem
  obtain ⟨l2, hl2, hid⟩ := List.mem_map.mp hmem
  have hl2m := List.mem_filter.mp hl2
  have : l2 = l := List.inj_on_of_nodup_map hN hl2m.1 hl hid
  subst this
  rw [hfail] at hl2m
  exact absurd hl2m.2 (by simp)

/-- The middle element of a Nodup split list does not recur in the flanks. -/
theorem nodup_middle_not_mem {s t : List Nat} {a : Nat} (h : (s ++ a :: t).Nodup) :
    a ∉ s ∧ a ∉ t := by
  simp [List.nodup_append] at h
  exact ⟨h.2.2.1, h.2.1.1⟩

/-- The selected batch inherits Nodup ids from the lessons table. -/
theorem dueIds_nodup (st : State) (now : Nat) (hN : (st.lessons.map Lesson.id).Nodup) :
    ((dueLessons st now).map Lesson.id).Nodup :=
  hN.sublist ((List.filter_sublist st.lessons).map Lesson.id)

/-- Lesson lookups only read the lessons table. -/
theorem getLesson_congr_lessons (X Y : State) (h : X.lessons = Y.lessons) (lid : Nat) :
    getLesson X lid = getLesson Y lid := by
  unfold getLesson
  rw [h]

/-- Unfolding equation for the tick. -/
theorem publish_scheduled_lessons_def (clk : Nat → Nat) (st : State) :
    publish_scheduled_lessons clk st =
      runBatch clk 0 st ((dueLessons st (clk 0)).map Lesson.id) := rfl

end CMS

namespace CMS

/-! Claim theorems. -/

/-- C1 counterexample: `published_at` is NOT set at most once.  On a lesson
whose `published_at` is already `some 5`, publish-now at reading 10 rewrites
it to `some 10`, and a worker due-transition of a re-scheduled lesson at
readings 20,21,... rewrites it to `some 21`: both assignments are
unconditional in the code. -/
theorem C1_counterexample :
    (publish_lesson 10 11 1 { action := some "publish_now", publish_at := none } exStPub).map
        (fun s => (getLesson s 1).map Lesson.published_at) = .ok (some (some 10)) ∧
    (getLesson (publish_scheduled_lessons (fun i => 20 + i) exStResched) 1).map
        Lesson.published_at = some (some 21) ∧
    (getLesson exStPub 1).map Lesson.published_at = some (some 5) ∧
    (getLesson exStResched 1).map Lesson.published_at = some (some 5) ∧
    (5 : Nat) ≠ 10 ∧ (5 : Nat) ≠ 21 :=
  ⟨rfl, rfl, rfl, rfl, by decide, by decide⟩

/-- C1 (amended): publish-now always overwrites `published_at` with the
current reading (regardless of a previous value), and the worker only
transitions lessons whose status is `scheduled`, so a lesson in any other
status — in particular an already-published lesson that was not re-scheduled
— is left completely untouched by a worker tick. -/
theorem C1_published_at_overwritten (st : State) (l : Lesson) (t1 t2 : Nat)
    (pa : Option Nat) (clk : Nat → Nat)
    (hN : (st.lessons.map Lesson.id).Nodup) (hl : l ∈ st.lessons) :
    (∃ st', publish_lesson t1 t2 l.id { action := some "publish_now", publish_at := pa } st
        = .ok st' ∧
      getLesson st' l.id = some { l with
        status := LessonStatus.published, published_at := some t1, publish_at := none }) ∧
    (l.status ≠ LessonStatus.scheduled →
      getLesson (publish_scheduled_lessons clk st) l.id = some l) := by
  have hgl : getLesson st l.id = some l := getLesson_of_nodup st hN l hl
  constructor
  · obtain ⟨st', hok⟩ := publish_lesson_publish_now_isOk t1 t2 l.id st l pa hgl
    refine ⟨st', hok, ?_⟩
    have hls := publish_lesson_publish_now_lessons t1 t2 l.id st st' l pa hgl hok
    rw [getLesson_congr_lessons st'
      (updateLesson st { l with
        status := LessonStatus.published, published_at := some t1, publish_at := none })
      hls l.id]
    exact getLesson_updateLesson_eq st _ l hgl
  · intro hns
    have hfail : (decide (l.status = LessonStatus.scheduled)
        && isDue l.publish_at (clk 0)) = false := by
      simp [hns]
    have hnm := notMem_dueIds st hN l hl (clk 0) hfail
    rw [publish_scheduled_lessons_def]
    rw [runBatch_getLesson_preserve clk _ 0 st l.id (fun lid hm he => hnm (he ▸ hm))]
    exact hgl

/-- C1 witness: the amended claim evaluated on the concrete store `exStPub`
(one already-published lesson, id 1, `published_at = some 5`). -/
theorem C1_published_at_overwritten_witness :
    (∃ st', publish_lesson 10 11 1 { action := some "publish_now", publish_at := none } exStPub
        = .ok st' ∧
      getLesson st' 1 = some { exLessonPub with
        status := LessonStatus.published, published_at := some 10, publish_at := none }) ∧
    getLesson (publish_scheduled_lessons (fun i => 20 + i) exStPub) 1 = some exLessonPub := by
  have h := C1_published_at_overwritten exStPub exLessonPub 10 11 none (fun i => 20 + i)
    (by decide) (by decide)
  exact ⟨h.1, h.2 (by decide)⟩

end CMS

namespace CMS

/-- C2 counterexample: a worker due-transition is NOT state-identical to
publish-now at the same clock readings.  On the same store, with every
`utcnow()` reading equal to 10, publish-now clears the lesson's `publish_at`
to None while the worker leaves it at `some 3`. -/
theorem C2_counterexample :
    (publish_lesson 10 10 1 { action := some "publish_now", publish_at := none } exStSched).map
        (fun s => (getLesson s 1).map Lesson.publish_at) = .ok (some none) ∧
    (getLesson (publish_scheduled_lessons (fun _ => 10) exStSched) 1).map Lesson.publish_at
        = some (some 3) ∧
    (some (some 3) : Option (Option Nat)) ≠ some none :=
  ⟨rfl, rfl, by decide⟩

/-- C2 (amended): at equal clock readings, the worker's due-transition of a
scheduled lesson yields exactly the publish-now handler state except for the
target lesson's `publish_at`, which the worker does not clear (and in both
paths `published_at` is assigned unconditionally, not only when previously
unset): overwriting the handler result with the worker's version of the
lesson row (status published, `published_at = t_lesson`, original
`publish_at`) reproduces the worker state, cascade included. -/
theorem C2_worker_matches_publish_now_except_publish_at (t1 t2 : Nat) (st st' : State)
    (l : Lesson) (pa : Option Nat)
    (hl : getLesson st l.id = some l) (hs : l.status = LessonStatus.scheduled)
    (hh : publish_lesson t1 t2 l.id { action := some "publish_now", publish_at := pa } st =
      .ok st') :
    workerPublishOne t1 t2 st l.id =
      updateLesson st' { l with
        status := LessonStatus.published, published_at := some t1 } :=
  workerPublishOne_eq_publish_now_restore t1 t2 st st' l pa hl hs hh

/-- C2 witness: the amended equivalence evaluated on the concrete store
`exStSched` at readings 10/11. -/
theorem C2_worker_matches_publish_now_except_publish_at_witness :
    workerPublishOne 10 11 exStSched 1 =
      updateLesson exStSchedPubNow { exLessonSched with
        status := LessonStatus.published, published_at := some 10 } :=
  C2_worker_matches_publish_now_except_publish_at 10 11 exStSched exStSchedPubNow
    exLessonSched none rfl rfl rfl

/-- C3: one worker tick publishes a scheduled lesson exactly when it is due
at the tick's captured time `clk 0`: a scheduled lesson with
`publish_at = some u`, `u ≤ clk 0` ends the tick published (with some clock
reading as `published_at`, all other fields unchanged), and one with
`clk 0 < u` is left completely unchanged. -/
theorem C3_worker_tick_publishes_iff_due (clk : Nat → Nat) (st : State)
    (hN : (st.lessons.map Lesson.id).Nodup) (l : Lesson) (hl : l ∈ st.lessons)
    (hs : l.status = LessonStatus.scheduled) (u : Nat) (hu : l.publish_at = some u) :
    (u ≤ clk 0 → ∃ t, getLesson (publish_scheduled_lessons clk st) l.id =
        some { l with status := LessonStatus.published, published_at := some t }) ∧
    (clk 0 < u → getLesson (publish_scheduled_lessons clk st) l.id = some l) := by
  have hgl : getLesson st l.id = some l := getLesson_of_nodup st hN l hl
  constructor
  · intro hdue
    have hmem : l ∈ dueLessons st (clk 0) := by
      apply List.mem_filter.mpr
      refine ⟨hl, ?_⟩
      rw [hs, hu]
      simp [isDue, hdue]
    have hidmem : l.id ∈ (dueLessons st (clk 0)).map Lesson.id :=
      List.mem_map_of_mem Lesson.id hmem
    obtain ⟨s1, s2, hsplit⟩ := List.append_of_mem hidmem
    have hdN := dueIds_nodup st (clk 0) hN
    rw [hsplit] at hdN
    obtain ⟨hns1, hns2⟩ := nodup_middle_not_mem hdN
    rw [publish_scheduled_lessons_def, hsplit]
    exact runBatch_publishes clk s1 s2 0 st l.id l
      (fun x hx he => hns1 (he ▸ hx)) (fun x hx he => hns2 (he ▸ hx)) hgl hs
  · intro hfut
    have hfail : (decide (l.status = LessonStatus.scheduled)
        && isDue l.publish_at (clk 0)) = false := by
      rw [hu]
      simp [isDue]
      omega
    have hnm := notMem_dueIds st hN l hl (clk 0) hfail
    rw [publish_scheduled_lessons_def]
    rw [runBatch_getLesson_preserve clk _ 0 st l.id (fun lid hm he => hnm (he ▸ hm))]
    exact hgl

/-- C3 witness: on the concrete store `exStBoth` (lesson 1 due at 3,
lesson 2 due at 99) a tick captured at time 10 publishes lesson 1 and
leaves lesson 2 unchanged. -/
theorem C3_worker_tick_publishes_iff_due_witness :
    (∃ t, getLesson (publish_scheduled_lessons (fun i => 10 + i) exStBoth) 1 =
      some { exLessonSched with
        status := LessonStatus.published, published_at := some t }) ∧
    getLesson (publish_scheduled_lessons (fun i => 10 + i) exStBoth) 2 =
      some exLessonFuture := by
  have h1 := C3_worker_tick_publishes_iff_due (fun i => 10 + i) exStBoth (by decide)
    exLessonSched (by decide) rfl 3 rfl
  have h2 := C3_worker_tick_publishes_iff_due (fun i => 10 + i) exStBoth (by decide)
    exLessonFuture (by decide) rfl 99 rfl
  exact ⟨h1.1 (by decide), h2.2 (by decide)⟩

/-- C4: a program's `published_at`, once non-null, is preserved by any whole
worker tick and by any handler call, however many descendant lessons publish:
the cascade only assigns it when it is currently None. -/
theorem C4_program_published_at_set_at_most_once (st : State) (pid v : Nat) (p : Program)
    (hp : getProgram st pid = some p) (hv : p.published_at = some v)
    (clk : Nat → Nat) (t1 t2 lid : Nat) (data : PublishRequest) :
    (∃ q, getProgram (publish_scheduled_lessons clk st) pid = some q ∧
      q.published_at = some v) ∧
    (∀ st', publish_lesson t1 t2 lid data st = .ok st' →
      ∃ q, getProgram st' pid = some q ∧ q.published_at = some v) := by
  constructor
  · rw [publish_scheduled_lessons_def]
    exact runBatch_pubAt_inv clk _ 0 st pid v ⟨p, hp, hv⟩
  · intro st' hh
    exact pubAt_inv_of_shape st st' t2 pid v
      (publish_lesson_programs t1 t2 lid data st st' hh) ⟨p, hp, hv⟩

/-- C4 witness: on the concrete store `exStProgPub` (program 20 already
published at 5, lesson 1 due) a worker tick and a publish-now call both keep
`published_at = some 5`. -/
theorem C4_program_published_at_set_at_most_once_witness :
    (∃ q, getProgram (publish_scheduled_lessons (fun i => 10 + i) exStProgPub) 20 = some q ∧
      q.published_at = some 5) ∧
    (∃ q, getProgram exStProgPubPubNow 20 = some q ∧ q.published_at = some 5) := by
  have h := C4_program_published_at_set_at_most_once exStProgPub 20 5 exProgPub rfl rfl
    (fun i => 10 + i) 10 11 1 { action := some "publish_now", publish_at := none }
  exact ⟨h.1, h.2 exStProgPubPubNow rfl⟩

/-- C5: an archived program row is never changed — status, `published_at` and
all — by a worker tick or by any handler call: the cascade fires only when
the parent program is draft. -/
theorem C5_archived_program_never_touched (st : State) (pid : Nat) (p : Program)
    (hp : getProgram st pid = some p) (ha : p.status = ProgramStatus.archived)
    (clk : Nat → Nat) (t1 t2 lid : Nat) (data : PublishRequest) :
    getProgram (publish_scheduled_lessons clk st) pid = some p ∧
    (∀ st', publish_lesson t1 t2 lid data st = .ok st' → getProgram st' pid = some p) := by
  constructor
  · rw [publish_scheduled_lessons_def]
    exact runBatch_archived_inv clk _ 0 st pid p hp ha
  · intro st' hh
    exact archived_inv_of_shape st st' t2 pid p
      (publish_lesson_programs t1 t2 lid data st st' hh) hp ha

/-- C5 witness: on the concrete store `exStProgArch` (archived program 20,
lesson 1 due) a worker tick and a publish-now call both leave program 20
exactly as it was. -/
theorem C5_archived_program_never_touched_witness :
    getProgram (publish_scheduled_lessons (fun i => 10 + i) exStProgArch) 20 =
      some exProgArch ∧
    getProgram exStProgArchPubNow 20 = some exProgArch := by
  have h := C5_archived_program_never_touched exStProgArch 20 exProgArch rfl rfl
    (fun i => 10 + i) 10 11 1 { action := some "publish_now", publish_at := none }
  exact ⟨h.1, h.2 exStProgArchPubNow rfl⟩

end CMS

namespace CMS

/-- C6 counterexample: the schedule action does NOT require `publish_at` to
be in the future.  With every handler clock reading equal to 10, scheduling
with `publish_at = 5` (already past) succeeds and stores the past time. -/
theorem C6_counterexample :
    (publish_lesson 10 10 1 { action := some "schedule", publish_at := some 5 } exStDraft).map
        (fun s => (getLesson s 1).map (fun x => (x.status, x.publish_at, x.published_at)))
      = .ok (some (LessonStatus.scheduled, some 5, none)) ∧ ¬ 10 < 5 :=
  ⟨rfl, by decide⟩

/-- C6 (amended): the schedule action with a present `publish_at` value `v`
— any value, with no check against the current time — writes the lesson back
with `status = scheduled` and `publish_at = some v` (hence non-null),
leaving `published_at`, every other lesson field, and the whole terms and
programs tables untouched. -/
theorem C6_schedule_sets_fields_no_future_check (t1 t2 lid : Nat) (st : State) (l : Lesson)
    (v : Nat) (hl : getLesson st lid = some l) :
    publish_lesson t1 t2 lid { action := some "schedule", publish_at := some v } st =
      .ok (updateLesson st { l with
        status := LessonStatus.scheduled, publish_at := some v }) :=
  publish_lesson_schedule t1 t2 lid st l v hl

/-- C6 witness: scheduling the concrete draft lesson for past time 5 at
handler time 10. -/
theorem C6_schedule_sets_fields_no_future_check_witness :
    publish_lesson 10 10 1 { action := some "schedule", publish_at := some 5 } exStDraft =
      .ok (updateLesson exStDraft { exLessonDraft with
        status := LessonStatus.scheduled, publish_at := some 5 }) :=
  C6_schedule_sets_fields_no_future_check 10 10 1 exStDraft exLessonDraft 5 rfl

/-- C7: the schedule action without a `publish_at` value fails with the 400
validation error (the exception is raised before any field assignment and
before commit, so the error result carries no mutated state), and that error
is distinct from the 404 not-found error. -/
theorem C7_schedule_missing_publish_at (t1 t2 lid : Nat) (st : State) (l : Lesson)
    (hl : getLesson st lid = some l) :
    publish_lesson t1 t2 lid { action := some "schedule", publish_at := none } st =
      .error (.http 400 "publish_at required for scheduling") ∧
    PubError.http 400 "publish_at required for scheduling" ≠
      PubError.http 404 "Lesson not found" :=
  ⟨publish_lesson_schedule_missing t1 t2 lid st l hl, by decide⟩

/-- C7 witness: the validation error on the concrete store. -/
theorem C7_schedule_missing_publish_at_witness :
    publish_lesson 10 10 1 { action := some "schedule", publish_at := none } exStDraft =
      .error (.http 400 "publish_at required for scheduling") ∧
    PubError.http 400 "publish_at required for scheduling" ≠
      PubError.http 404 "Lesson not found" :=
  C7_schedule_missing_publish_at 10 10 1 exStDraft exLessonDraft rfl

/-- C9: the archive action writes the lesson back with only `status`
changed to archived: `publish_at`, `published_at` and every other lesson
field keep their values, and the terms and programs tables are untouched. -/
theorem C9_archive_sets_only_status (t1 t2 lid : Nat) (st : State) (l : Lesson)
    (pa : Option Nat) (hl : getLesson st lid = some l) :
    publish_lesson t1 t2 lid { action := some "archive", publish_at := pa } st =
      .ok (updateLesson st { l with status := LessonStatus.archived }) :=
  publish_lesson_archive t1 t2 lid st l pa hl

/-- C9 witness: archiving the concrete scheduled lesson keeps its
`publish_at = some 3` and `published_at = none`. -/
theorem C9_archive_sets_only_status_witness :
    publish_lesson 10 10 1 { action := some "archive", publish_at := none } exStSched =
      .ok (updateLesson exStSched { exLessonSched with status := LessonStatus.archived }) :=
  C9_archive_sets_only_status 10 10 1 exStSched exLessonSched none rfl

/-- C10: a request body without an `"action"` key raises the untyped KeyError
(not the typed 400), and the typed 400 "Invalid action" arises exactly when
an `"action"` key is present with a value other than publish_now, schedule
or archive. -/
theorem C10_missing_action_key_and_invalid_action (t1 t2 lid : Nat) (st : State) (l : Lesson)
    (pa : Option Nat) (hl : getLesson st lid = some l) :
    publish_lesson t1 t2 lid { action := none, publish_at := pa } st = .error .keyError ∧
    PubError.keyError ≠ PubError.http 400 "Invalid action" ∧
    ∀ a : String,
      (publish_lesson t1 t2 lid { action := some a, publish_at := pa } st =
          .error (.http 400 "Invalid action") ↔
        a ≠ "publish_now" ∧ a ≠ "schedule" ∧ a ≠ "archive") := by
  refine ⟨publish_lesson_keyError t1 t2 lid st l pa hl, by decide, ?_⟩
  intro a
  constructor
  · intro h
    refine ⟨?_, ?_, ?_⟩
    · rintro rfl
      obtain ⟨st', hok⟩ := publish_lesson_publish_now_isOk t1 t2 lid st l pa hl
      rw [hok] at h
      exact absurd h (by simp)
    · rintro rfl
      cases hpa : pa with
      | none =>
        rw [hpa] at h
        rw [publish_lesson_schedule_missing t1 t2 lid st l hl] at h
        exact absurd (Except.error.inj h) (by decide)
      | some v =>
        rw [hpa] at h
        rw [publish_lesson_schedule t1 t2 lid st l v hl] at h
        exact absurd h (by simp)
    · rintro rfl
      rw [publish_lesson_archive t1 t2 lid st l pa hl] at h
      exact absurd h (by simp)
  · rintro ⟨h1, h2, h3⟩
    exact publish_lesson_invalid t1 t2 lid st l a pa hl h1 h2 h3

/-- C10 witness: the KeyError and the typed 400 on the concrete store. -/
theorem C10_missing_action_key_and_invalid_action_witness :
    publish_lesson 10 10 1 { action := none, publish_at := none } exStDraft =
      .error .keyError ∧
    publish_lesson 10 10 1 { action := some "bogus", publish_at := none } exStDraft =
      .error (.http 400 "Invalid action") := by
  have h := C10_missing_action_key_and_invalid_action 10 10 1 exStDraft exLessonDraft none rfl
  exact ⟨h.1, (h.2.2 "bogus").mpr ⟨by decide, by decide, by decide⟩⟩

end CMS
